import Mathlib

/-!
Verification of the llmtui terminal chat client (`src/main.go`).

The development shallowly embeds the program's data model and operations:

* `Model`, `Msg`, `Cmd`, `update`, `initialModel`, `view` embed the Bubble Tea
  model and its `Update`/`View` methods (Go file `main.go`).  Lipgloss style
  rendering is modelled as the identity on text: the spec explicitly excludes
  color/style rendering from the core, and no claim depends on escape codes.
* `Chan`, `trySend`, `producerOps`, `runOps` embed the bounded Go channel
  (`make(chan string, 100)`) and the producer goroutine
  `startStreamingInBackground`; `poll`/`decode` embed the consumer side
  `listenForStreamUpdates`.
* Go strings are modelled as Lean `String` (a list of characters); byte-level
  slicing in the Go source only ever happens on ASCII prefixes (`"DONE:"`,
  `"ERROR:"`), where the two coincide.
-/

/-- A transcript entry, Go struct `chatMessage`. -/
structure ChatMessage where
  role : String
  content : String
deriving DecidableEq, Repr

/-- Messages delivered to `model.Update` (Go `tea.Msg` variants of `main.go`).
`key s` carries the result of `msg.String()` for a `tea.KeyMsg`. -/
inductive Msg where
  | key (s : String)
  | msgResponse (content : String) (err : Option String)
  | streamStartMsg
  | streamStarted
  | streamUpdateMsg (content : String)
  | streamCompleteMsg (content : String) (err : Option String)
  | msgStreamChunk (chunk : String) (done : Bool) (err : Option String)
deriving DecidableEq, Repr

/-- Commands returned by `model.Update`: `tea.Quit`, `m.sendMessage()`
(a batch that emits `streamStartMsg` and `streamStarted`), and
`listenForStreamUpdates(m.streamChan)`. -/
inductive Cmd where
  | quit
  | sendMessage
  | listen
deriving DecidableEq, Repr

/-- Session state, Go struct `model`.  `err` is the error text (`error` is
`nil` or a message built with `fmt.Errorf`); `streamChan` records whether
`m.streamChan != nil`. The `client`/`modelName` fields take no part in any
state transition of `Update` and are omitted. -/
structure Model where
  messages : List ChatMessage
  input : String
  viewport : String
  loading : Bool
  streaming : Bool
  partialResp : String
  err : Option String
  streamChan : Bool
deriving DecidableEq, Repr

/-- Go `m.input[:len(m.input)-1]` (drop the final byte; ASCII-faithful). -/
def strDropLast (s : String) : String := String.mk s.data.dropLast

/-- `initialModel()` from `main.go`: with the `OPENAI_API_KEY` environment
variable empty it returns a model whose only set field is `err`; otherwise
all flags are zero-valued and the transcript is empty. -/
def initialModel (apiKey : String) : Model :=
  if apiKey = "" then
    { messages := [], input := "", viewport := "", loading := false,
      streaming := false, partialResp := "",
      err := some "OPENAI_API_KEY not found in environment or .env file",
      streamChan := false }
  else
    { messages := [], input := "", viewport := "", loading := false,
      streaming := false, partialResp := "", err := none, streamChan := false }

/-- The `Fatal` startup state (missing credential). -/
def fatalModel : Model := initialModel ""

/-- The healthy startup state. -/
def initialModelOk : Model := initialModel "sk-test"

/-- `model.Update` from `main.go`, translated case by case.  Style `Render`
calls are the identity on their argument. -/
def update (m : Model) (msg : Msg) : Model × Option Cmd :=
  match msg with
  | .key s =>
    if s = "ctrl+c" ∨ s = "q" then (m, some .quit)
    else if s = "enter" then
      if m.input ≠ "" ∧ m.loading = false then
        ({ m with
            messages := m.messages ++ [⟨"user", m.input⟩],
            viewport := m.viewport ++ "You: " ++ m.input ++ "\n\n",
            input := "",
            loading := true }, some .sendMessage)
      else (m, none)
    else if s = "backspace" then
      if m.input.length > 0 then ({ m with input := strDropLast m.input }, none)
      else (m, none)
    else
      if m.loading = false then ({ m with input := m.input ++ s }, none)
      else (m, none)
  | .msgResponse content e =>
    match e with
    | some _ => ({ m with loading := false, err := e }, none)
    | none =>
      ({ m with
          loading := false,
          messages := m.messages ++ [⟨"assistant", content⟩],
          viewport := m.viewport ++ "LLM: " ++ content ++ "\n\n" }, none)
  | .streamStartMsg => ({ m with streaming := true, partialResp := "" }, none)
  | .streamStarted => ({ m with streamChan := true }, some .listen)
  | .streamUpdateMsg content =>
    let m' := if content ≠ "" then { m with partialResp := content } else m
    if m'.streamChan then (m', some .listen) else (m', none)
  | .streamCompleteMsg content e =>
    match e with
    | some _ =>
      ({ m with loading := false, streaming := false, streamChan := false,
                err := e, partialResp := "" }, none)
    | none =>
      ({ m with loading := false, streaming := false, streamChan := false,
                messages := m.messages ++ [⟨"assistant", content⟩],
                viewport := m.viewport ++ "LLM: " ++ content ++ "\n\n",
                partialResp := "" }, none)
  | .msgStreamChunk chunk done e =>
    match e with
    | some _ =>
      ({ m with err := e, loading := false, streaming := false,
                partialResp := "" }, none)
    | none =>
      if done then
        ({ m with loading := false, streaming := false,
                  messages := m.messages ++ [⟨"assistant", chunk⟩],
                  viewport := m.viewport ++ "LLM: " ++ chunk ++ "\n\n",
                  partialResp := "" }, none)
      else
        ({ m with partialResp := chunk, streaming := true }, none)

/-- Fold a list of messages through `update`, keeping only the model. -/
def runMsgs (m : Model) (l : List Msg) : Model :=
  l.foldl (fun m msg => (update m msg).1) m

/-- `model.View` from `main.go` with style `Render` as the identity. -/
def view (m : Model) : String :=
  match m.err with
  | some e => "Error: " ++ e ++ "\n\n" ++ "Press q to quit."
  | none =>
    let b := "LLM TUI Chat" ++ "\n" ++ "================" ++ "\n\n" ++ m.viewport
    let b := if m.loading then
        (if m.streaming ∧ m.partialResp ≠ "" then
          b ++ "LLM: " ++ m.partialResp ++ "█"
        else b ++ "LLM is typing...") ++ "\n\n"
      else b
    let b := b ++ "You: " ++ m.input
    let b := if m.loading = false then b ++ "█" else b
    b ++ "\n\n" ++ "Press Enter to send, Ctrl+C or q to quit"

/-- The bounded conduit, Go `make(chan string, 100)`: a FIFO buffer with a
capacity and a closed flag. -/
structure Chan where
  buf : List String
  cap : Nat
  closed : Bool
deriving DecidableEq, Repr

/-- A freshly allocated channel of the given capacity. -/
def Chan.new (cap : Nat) : Chan := ⟨[], cap, false⟩

/-- Go non-blocking send `select { case ch <- v: default: }` on an open
channel: enqueue `v` if the buffer is below capacity, otherwise drop `v`
(the `default` branch runs and the new value is discarded). -/
def trySend (c : Chan) (v : String) : Chan :=
  if c.buf.length < c.cap then { c with buf := c.buf ++ [v] } else c

/-- Channel operations the producer goroutine performs, in program order. -/
inductive Op where
  | send (v : String)
  | close
deriving DecidableEq, Repr

/-- Apply a trace of producer operations to a channel. -/
def runOps (c : Chan) (ops : List Op) : Chan :=
  ops.foldl (fun c op =>
    match op with
    | .send v => trySend c v
    | .close => { c with closed := true }) c

/-- The cumulative snapshots `startStreamingInBackground` sends: for each
delta with non-empty content the accumulated text so far is sent (chunks
with no choices or empty content are skipped; they are the `""` entries). -/
def accumSends : List String → String → List String
  | [], _ => []
  | d :: rest, acc =>
    if d ≠ "" then (acc ++ d) :: accumSends rest (acc ++ d)
    else accumSends rest acc

/-- `fullResponse.String()` after the stream is exhausted. -/
def finalAccum (deltas : List String) : String :=
  deltas.foldl (fun a d => if d ≠ "" then a ++ d else a) ""

/-- The terminal payload: `"DONE:" + fullResponse` on success,
`"ERROR:" + err.Error()` on failure. -/
def encodeTerminal (gerr : Option String) (full : String) : String :=
  match gerr with
  | none => "DONE:" ++ full
  | some e => "ERROR:" ++ e

/-- The exact channel-operation trace of `startStreamingInBackground` for a
gateway run delivering `deltas` and finishing with `stream.Err() = gerr`:
one non-blocking send per non-empty delta, one non-blocking terminal send,
then the single deferred `close`. -/
def producerOps (deltas : List String) (gerr : Option String) : List Op :=
  (accumSends deltas "").map Op.send
    ++ [Op.send (encodeTerminal gerr (finalAccum deltas)), Op.close]

/-- The channel state after the producer runs to completion on a fresh
conduit with no interleaved consumer reads (one legal schedule: the
consumer goroutine is not scheduled during production). -/
def producerRun (deltas : List String) (gerr : Option String) : Chan :=
  runOps (Chan.new 100) (producerOps deltas gerr)

/-- Go `strings.HasPrefix s p`. -/
def hasPrefixS (s p : String) : Bool := p.data.isPrefixOf s.data

/-- Go byte-slicing `s[n:]` on ASCII prefixes. -/
def strDrop (s : String) (n : Nat) : String := String.mk (s.data.drop n)

/-- The string-decoding step of `listenForStreamUpdates`: a `"DONE:"` prefix
becomes a successful terminal message, an `"ERROR:"` prefix a failed one,
anything else a partial update. -/
def decode (content : String) : Msg :=
  if hasPrefixS content "DONE:" then .streamCompleteMsg (strDrop content 5) none
  else if hasPrefixS content "ERROR:" then
    .streamCompleteMsg "" (some (strDrop content 6))
  else .streamUpdateMsg content

/-- One poll of `listenForStreamUpdates`: receive and decode if a value is
buffered; a closed, drained channel yields the synthetic empty done
message; otherwise the 50 ms timeout yields an empty update. -/
def poll (c : Chan) : Msg × Chan :=
  match c.buf with
  | v :: rest => (decode v, { c with buf := rest })
  | [] =>
    if c.closed then (.streamCompleteMsg "" none, c)
    else (.streamUpdateMsg "", c)

/-- States reachable from the healthy start state by arbitrary sequences of
key events and relay messages (the `stream*` messages), with no constraint
on delivery order.  `msgResponse`/`msgStreamChunk` are not relay messages:
no command of `main.go` ever produces them. -/
inductive ReachAny : Model → Prop
  | init : ReachAny initialModelOk
  | key (m s) : ReachAny m → ReachAny (update m (.key s)).1
  | start (m) : ReachAny m → ReachAny (update m .streamStartMsg).1
  | started (m) : ReachAny m → ReachAny (update m .streamStarted).1
  | upd (m c) : ReachAny m → ReachAny (update m (.streamUpdateMsg c)).1
  | complete (m c e) : ReachAny m → ReachAny (update m (.streamCompleteMsg c e)).1

/-- States reachable when relay messages are delivered in request order:
`streamStartMsg` is delivered only while its request is in flight
(`loading = true`) and before the request's updates and terminal event,
and updates are delivered only while streaming.  Actual runs have this
shape except for the `tea.Batch` race noted at `sendMessage`. -/
inductive ReachOrd : Model → Prop
  | init : ReachOrd initialModelOk
  | key (m s) : ReachOrd m → ReachOrd (update m (.key s)).1
  | start (m) : ReachOrd m → m.loading = true → ReachOrd (update m .streamStartMsg).1
  | started (m) : ReachOrd m → ReachOrd (update m .streamStarted).1
  | upd (m c) : ReachOrd m → m.streaming = true → ReachOrd (update m (.streamUpdateMsg c)).1
  | complete (m c e) : ReachOrd m → ReachOrd (update m (.streamCompleteMsg c e)).1

/-- The result message of the legacy non-streaming `model.sendMessage`
(older source file, `src/unnamed/part_001`): a completion with zero choices
is turned into an error message, otherwise the first choice's content is
returned.  `choices` lists the contents of `resp.Choices`. -/
def sendMessageResult (choices : List String) : Msg :=
  match choices with
  | [] => .msgResponse "" (some "no response from OpenAI")
  | c :: _ => .msgResponse c none

theorem streamUpdate_model (m : Model) (c : String) :
    (update m (.streamUpdateMsg c)).1
      = { m with partialResp := if c = "" then m.partialResp else c } := by
  by_cases hc : c = "" <;> simp [update, hc] <;> split <;> rfl

theorem runMsgs_updates (ds : List String) (m : Model) :
    runMsgs m (ds.map Msg.streamUpdateMsg)
      = { m with partialResp :=
            ds.foldl (fun a c => if c = "" then a else c) m.partialResp } := by
  induction ds generalizing m with
  | nil => rfl
  | cons d rest ih =>
    show runMsgs (update m (.streamUpdateMsg d)).1 (rest.map Msg.streamUpdateMsg) = _
    rw [streamUpdate_model, ih]
    simp

/-- C1: a run of non-terminal stream updates followed by a successful
terminal event appends exactly one assistant message whose content is the
terminal event's final text (never a concatenation of the updates), clears
the partial text and clears the loading and streaming flags; and every
update with non-empty text overwrites the partial text. -/
theorem stream_done_appends_exactly_final_text (m : Model) (ds : List String) (d : String) :
    (runMsgs m (ds.map Msg.streamUpdateMsg ++ [Msg.streamCompleteMsg d none])).messages
        = m.messages ++ [⟨"assistant", d⟩]
    ∧ (runMsgs m (ds.map Msg.streamUpdateMsg ++ [Msg.streamCompleteMsg d none])).partialResp = ""
    ∧ (runMsgs m (ds.map Msg.streamUpdateMsg ++ [Msg.streamCompleteMsg d none])).loading = false
    ∧ (runMsgs m (ds.map Msg.streamUpdateMsg ++ [Msg.streamCompleteMsg d none])).streaming = false
    ∧ ∀ c, c ≠ "" → (update m (Msg.streamUpdateMsg c)).1.partialResp = c := by
  have hsplit : runMsgs m (ds.map Msg.streamUpdateMsg ++ [Msg.streamCompleteMsg d none])
      = (update (runMsgs m (ds.map Msg.streamUpdateMsg)) (Msg.streamCompleteMsg d none)).1 := by
    simp [runMsgs, List.foldl_append]
  rw [hsplit, runMsgs_updates]
  refine ⟨by simp [update], by simp [update], by simp [update], by simp [update], ?_⟩
  intro c hc
  rw [streamUpdate_model]
  simp [hc]

/-- Witness for C1 at scenario 1 of the spec. -/
theorem stream_done_appends_exactly_final_text_witness :
    (runMsgs initialModelOk
        ((["H", "He", "Hel"].map Msg.streamUpdateMsg) ++ [Msg.streamCompleteMsg "Hello" none])).messages
        = initialModelOk.messages ++ [⟨"assistant", "Hello"⟩]
    ∧ ("H" : String) ≠ ""
    ∧ (update initialModelOk (Msg.streamUpdateMsg "H")).1.partialResp = "H" :=
  ⟨(stream_done_appends_exactly_final_text initialModelOk ["H", "He", "Hel"] "Hello").1,
   by decide,
   (stream_done_appends_exactly_final_text initialModelOk ["H", "He", "Hel"] "Hello").2.2.2.2
     "H" (by decide)⟩

/-- C2: a terminal error event leaves the transcript unchanged (no assistant
message appended), clears the loading and streaming flags, clears the
partial text, and records the error description in the state. -/
theorem terminal_error_appends_nothing (m : Model) (c e : String) :
    (update m (.streamCompleteMsg c (some e))).1.messages = m.messages
    ∧ (update m (.streamCompleteMsg c (some e))).1.loading = false
    ∧ (update m (.streamCompleteMsg c (some e))).1.streaming = false
    ∧ (update m (.streamCompleteMsg c (some e))).1.partialResp = ""
    ∧ (update m (.streamCompleteMsg c (some e))).1.err = some e := by
  simp [update]

theorem data_done_append (s : String) :
    ("DONE:" ++ s).data = 'D' :: 'O' :: 'N' :: 'E' :: ':' :: s.data := by
  rw [String.data_append]; rfl

theorem data_error_append (s : String) :
    ("ERROR:" ++ s).data = 'E' :: 'R' :: 'R' :: 'O' :: 'R' :: ':' :: s.data := by
  rw [String.data_append]; rfl

theorem decode_done (s : String) :
    decode ("DONE:" ++ s) = Msg.streamCompleteMsg s none := by
  have hpre : hasPrefixS ("DONE:" ++ s) "DONE:" = true := by
    simp [hasPrefixS, data_done_append, List.isPrefixOf_iff_prefix]
  have hdrop : strDrop ("DONE:" ++ s) 5 = s := by
    simp [strDrop, data_done_append]
  simp [decode, hpre, hdrop]

theorem decode_error (s : String) :
    decode ("ERROR:" ++ s) = Msg.streamCompleteMsg "" (some s) := by
  have hnot : hasPrefixS ("ERROR:" ++ s) "DONE:" = false := by
    simp [hasPrefixS, data_error_append]
    rfl
  have hpre : hasPrefixS ("ERROR:" ++ s) "ERROR:" = true := by
    simp [hasPrefixS, data_error_append, List.isPrefixOf_iff_prefix]
  have hdrop : strDrop ("ERROR:" ++ s) 6 = s := by
    simp [strDrop, data_error_append]
  simp [decode, hnot, hpre, hdrop]

theorem done_append_ne_empty (s : String) : ("DONE:" ++ s) ≠ "" := by
  intro h
  have : ("DONE:" ++ s).data = ("" : String).data := by rw [h]
  rw [data_done_append] at this
  exact List.noConfusion this

theorem error_append_ne_empty (s : String) : ("ERROR:" ++ s) ≠ "" := by
  intro h
  have : ("ERROR:" ++ s).data = ("" : String).data := by rw [h]
  rw [data_error_append] at this
  exact List.noConfusion this

/-- C9: the conduit's string encoding is ambiguous.  If the accumulated
response text itself begins with `"DONE:"` (resp. `"ERROR:"`), the producer
sends it as a partial snapshot, but the consumer decodes it as a terminal
done (resp. error) event: processing it ends the turn with a truncated
assistant message (resp. a spurious error), though the gateway neither
completed nor failed. -/
theorem partial_snapshot_decoded_as_terminal (s : String) (m : Model) :
    accumSends ["DONE:" ++ s] "" = ["DONE:" ++ s]
    ∧ decode ("DONE:" ++ s) = Msg.streamCompleteMsg s none
    ∧ (update m (decode ("DONE:" ++ s))).1.messages = m.messages ++ [⟨"assistant", s⟩]
    ∧ (update m (decode ("DONE:" ++ s))).1.loading = false
    ∧ accumSends ["ERROR:" ++ s] "" = ["ERROR:" ++ s]
    ∧ decode ("ERROR:" ++ s) = Msg.streamCompleteMsg "" (some s)
    ∧ (update m (decode ("ERROR:" ++ s))).1.err = some s := by
  refine ⟨?_, decode_done s, ?_, ?_, ?_, decode_error s, ?_⟩
  · simp [accumSends, done_append_ne_empty s]
  · rw [decode_done]; simp [update]
  · rw [decode_done]; simp [update]
  · simp [accumSends, error_append_ne_empty s]
  · rw [decode_error]; simp [update]

theorem runOps_append (c : Chan) (l1 l2 : List Op) :
    runOps c (l1 ++ l2) = runOps (runOps c l1) l2 := by
  simp [runOps, List.foldl_append]

theorem runOps_sends (l : List String) (c : Chan) :
    runOps c (l.map Op.send) = l.foldl trySend c := by
  induction l generalizing c with
  | nil => rfl
  | cons v rest ih => exact ih (trySend c v)

theorem foldl_trySend (l : List String) (buf : List String) (cp : Nat) (cl : Bool) :
    l.foldl trySend ⟨buf, cp, cl⟩ = ⟨buf ++ l.take (cp - buf.length), cp, cl⟩ := by
  induction l generalizing buf with
  | nil => simp
  | cons v rest ih =>
    by_cases h : buf.length < cp
    · have h1 : trySend ⟨buf, cp, cl⟩ v = ⟨buf ++ [v], cp, cl⟩ := by simp [trySend, h]
      have h2 : cp - buf.length = (cp - (buf.length + 1)) + 1 := by omega
      rw [List.foldl_cons, h1, ih]
      simp [h2, List.take_succ_cons]
    · have h1 : trySend ⟨buf, cp, cl⟩ v = ⟨buf, cp, cl⟩ := by simp [trySend, h]
      have h2 : cp - buf.length = 0 := by omega
      rw [List.foldl_cons, h1, ih]
      simp [h2]

theorem producerRun_eq (deltas : List String) (gerr : Option String) :
    producerRun deltas gerr
      = ⟨(accumSends deltas "" ++ [encodeTerminal gerr (finalAccum deltas)]).take 100,
         100, true⟩ := by
  have hnew : Chan.new 100 = ⟨[], 100, false⟩ := rfl
  rw [producerRun, producerOps, runOps_append, runOps_sends, hnew, foldl_trySend]
  simp only [List.nil_append, List.length_nil, Nat.sub_zero]
  by_cases h : (accumSends deltas "").length < 100
  · have htake : (accumSends deltas "").take 100 = accumSends deltas "" :=
      List.take_of_length_le (by omega)
    have htake2 : (accumSends deltas "" ++ [encodeTerminal gerr (finalAccum deltas)]).take 100
        = accumSends deltas "" ++ [encodeTerminal gerr (finalAccum deltas)] :=
      List.take_of_length_le (by simp; omega)
    rw [htake, htake2]
    simp [runOps, trySend, h]
  · have hlen : ((accumSends deltas "").take 100).length = 100 := by
      simp [List.length_take]; omega
    have htake2 : (accumSends deltas "" ++ [encodeTerminal gerr (finalAccum deltas)]).take 100
        = (accumSends deltas "").take 100 :=
      List.take_append_of_le_length (by omega)
    rw [htake2]
    simp [runOps, trySend, hlen]

set_option maxRecDepth 100000 in
/-- C3 counterexample: with 101 one-character deltas and the consumer not
scheduled during production (a legal schedule), the 100 slots fill with
partial snapshots; the non-blocking terminal send hits a full conduit and
is dropped, so the producer closes the conduit having pushed no terminal
event at all. -/
theorem producer_terminal_send_dropped :
    (producerRun (List.replicate 101 "a") none).closed = true
    ∧ (producerRun (List.replicate 101 "a") none).buf.length = 100
    ∧ (producerRun (List.replicate 101 "a") none).buf.all
        (fun v => !(hasPrefixS v "DONE:" || hasPrefixS v "ERROR:")) = true := by
  decide

/-- C3 (amended): the producer performs exactly one close, as its final
operation, preceded immediately by exactly one terminal send attempt; the
terminal event actually enters the conduit whenever the conduit is not
full at that moment; no operation follows the close, and the consumer's
poll never closes the conduit. -/
theorem producer_one_close_one_terminal_attempt (deltas : List String)
    (gerr : Option String) (c : Chan) :
    (producerOps deltas gerr).count Op.close = 1
    ∧ (producerOps deltas gerr).getLast? = some Op.close
    ∧ (producerOps deltas gerr).dropLast.getLast?
        = some (Op.send (encodeTerminal gerr (finalAccum deltas)))
    ∧ (producerRun deltas gerr).closed = true
    ∧ ((accumSends deltas "").length < 100 →
        (producerRun deltas gerr).buf.getLast?
          = some (encodeTerminal gerr (finalAccum deltas)))
    ∧ (poll c).2.closed = c.closed := by
  have hsplit : producerOps deltas gerr
      = ((accumSends deltas "").map Op.send
          ++ [Op.send (encodeTerminal gerr (finalAccum deltas))]) ++ [Op.close] := by
    rw [producerOps, List.append_assoc]
    rfl
  refine ⟨?_, ?_, ?_, ?_, ?_, ?_⟩
  · rw [hsplit]
    simp [List.count_append]
    rw [List.count_eq_zero]
    simp [List.mem_map]
  · rw [hsplit, List.getLast?_concat]
  · rw [hsplit, List.dropLast_concat, List.getLast?_concat]
  · rw [producerRun_eq]
  · intro h
    rw [producerRun_eq]
    have : (accumSends deltas "" ++ [encodeTerminal gerr (finalAccum deltas)]).take 100
        = accumSends deltas "" ++ [encodeTerminal gerr (finalAccum deltas)] :=
      List.take_of_length_le (by simp; omega)
    rw [this]
    exact List.getLast?_concat _
  · cases hb : c.buf with
    | nil => simp only [poll, hb]; split <;> rfl
    | cons v rest => simp [poll, hb]

/-- Witness for the conditional push in C3's amended theorem, at a
one-delta stream on a fresh conduit. -/
theorem producer_one_close_one_terminal_attempt_witness :
    (producerRun ["x"] none).buf.getLast?
      = some (encodeTerminal none (finalAccum ["x"])) :=
  (producer_one_close_one_terminal_attempt ["x"] none (Chan.new 100)).2.2.2.2.1
    (by decide)

/-- C5 counterexample: a non-blocking send on a full conduit keeps the 100
older pending snapshots and discards the new, most recent one — the
opposite of drop-oldest. -/
theorem full_conduit_send_drops_newest :
    (trySend ⟨List.replicate 100 "old", 100, false⟩ "new").buf
        = List.replicate 100 "old"
    ∧ (trySend ⟨List.replicate 100 "old", 100, false⟩ "new").buf.contains "new"
        = false := by
  decide

/-- C5 (amended): the producer's non-blocking send never blocks: on a full
conduit it drops the newly offered (most recent) snapshot, leaving the
pending buffer unchanged; below capacity it enqueues at the tail. -/
theorem trySend_full_keeps_pending (c : Chan) (v : String) :
    (c.cap ≤ c.buf.length → trySend c v = c)
    ∧ (c.buf.length < c.cap → (trySend c v).buf = c.buf ++ [v]) := by
  constructor
  · intro h
    simp [trySend, Nat.not_lt.mpr h]
  · intro h
    simp [trySend, h]

/-- Witness for C5's amended theorem: a full conduit and an empty one. -/
theorem trySend_full_keeps_pending_witness :
    trySend ⟨List.replicate 100 "x", 100, false⟩ "y"
        = ⟨List.replicate 100 "x", 100, false⟩
    ∧ (trySend (⟨[], 100, false⟩ : Chan) "y").buf = [] ++ ["y"] :=
  ⟨(trySend_full_keeps_pending ⟨List.replicate 100 "x", 100, false⟩ "y").1 (by decide),
   (trySend_full_keeps_pending ⟨[], 100, false⟩ "y").2 (by decide)⟩

/-- C6 counterexample: a request submitted from the healthy start state
whose stream completes with zero content.  The producer pushes `"DONE:"`,
the consumer decodes it as a successful done with empty text, and the UI
appends an assistant message with empty content, surfacing no error —
not the error recovery the claim describes. -/
theorem empty_completion_appends_empty_message :
    (runMsgs (runMsgs initialModelOk
        [Msg.key "h", Msg.key "enter", Msg.streamStartMsg, Msg.streamStarted])
        [(poll (producerRun [] none)).1]).messages
      = [⟨"user", "h"⟩, ⟨"assistant", ""⟩]
    ∧ (runMsgs (runMsgs initialModelOk
        [Msg.key "h", Msg.key "enter", Msg.streamStartMsg, Msg.streamStarted])
        [(poll (producerRun [] none)).1]).err = none
    ∧ (runMsgs (runMsgs initialModelOk
        [Msg.key "h", Msg.key "enter", Msg.streamStartMsg, Msg.streamStarted])
        [(poll (producerRun [] none)).1]).loading = false := by
  decide

/-- C6 (amended): when the gateway completes with zero content the
streaming path emits a done event with empty final text: the session
returns to idle with `loading = false` and an assistant message with empty
content is appended; no error is surfaced.  Only the legacy non-streaming
path (`sendMessageResult`, file `src/unnamed/part_001`) turns an empty
completion into a non-fatal error with no appended message. -/
theorem empty_completion_behavior (deltas : List String) (m : Model)
    (h1 : accumSends deltas "" = []) (h2 : finalAccum deltas = "") :
    (poll (producerRun deltas none)).1 = Msg.streamCompleteMsg "" none
    ∧ (update m (Msg.streamCompleteMsg "" none)).1.messages
        = m.messages ++ [⟨"assistant", ""⟩]
    ∧ (update m (Msg.streamCompleteMsg "" none)).1.loading = false
    ∧ (update m (Msg.streamCompleteMsg "" none)).1.err = m.err
    ∧ (update m (sendMessageResult [])).1.err = some "no response from OpenAI"
    ∧ (update m (sendMessageResult [])).1.messages = m.messages
    ∧ (update m (sendMessageResult [])).1.loading = false := by
  refine ⟨?_, by simp [update], by simp [update], by simp [update],
          by simp [update, sendMessageResult], by simp [update, sendMessageResult],
          by simp [update, sendMessageResult]⟩
  rw [producerRun_eq, h1, h2]
  decide

/-- Witness for C6's amended theorem at the empty delta sequence. -/
theorem empty_completion_behavior_witness :
    (poll (producerRun [] none)).1 = Msg.streamCompleteMsg "" none
    ∧ (update initialModelOk (Msg.streamCompleteMsg "" none)).1.messages
        = initialModelOk.messages ++ [⟨"assistant", ""⟩] :=
  ⟨(empty_completion_behavior [] initialModelOk rfl rfl).1,
   (empty_completion_behavior [] initialModelOk rfl rfl).2.1⟩

/-- C4 counterexample: in the Fatal startup state (missing credential) a
literal key press does change the session state — it appends to the input
buffer — and from the resulting state the enter key starts a request
(`sendMessage` is issued).  Quit keys are not the only effective input. -/
theorem fatal_state_processes_keys :
    (update fatalModel (Msg.key "x")).1.input = "x"
    ∧ fatalModel.input = ""
    ∧ (update (runMsgs fatalModel [Msg.key "h", Msg.key "i"]) (Msg.key "enter")).2
        = some Cmd.sendMessage := by
  decide

/-- C4 (amended): key handling in `model.Update` never inspects the error
field, so the Fatal state handles keys exactly like any other non-loading
state: quit keys quit, a literal key appends its representation to the
input buffer, backspace drops the last character, and enter with a
non-empty input buffer starts a request. -/
theorem fatal_state_key_handling (m : Model) (s : String) (e : Option String)
    (t : String) (ht : t ≠ "") :
    ((update { m with err := e } (.key s)).1
        = { (update m (.key s)).1 with err := e }
      ∧ (update { m with err := e } (.key s)).2 = (update m (.key s)).2)
    ∧ (update fatalModel (.key "q")).2 = some Cmd.quit
    ∧ (update fatalModel (.key "ctrl+c")).2 = some Cmd.quit
    ∧ (update { fatalModel with input := t } (.key "enter")).2
        = some Cmd.sendMessage := by
  refine ⟨?_, by decide, by decide, ?_⟩
  · by_cases h1 : s = "ctrl+c" ∨ s = "q" <;>
      by_cases h2 : s = "enter" <;>
      by_cases h3 : s = "backspace" <;>
      by_cases h4 : m.input = "" <;>
      by_cases h5 : m.loading = false <;>
      by_cases h6 : m.input.length > 0 <;>
      simp_all [update]
  · simp [update, fatalModel, initialModel, ht]

/-- Witness for C4's amended theorem: enter with non-empty input in the
Fatal state starts a request. -/
theorem fatal_state_key_handling_witness :
    (update { fatalModel with input := "hi" } (.key "enter")).2
      = some Cmd.sendMessage :=
  (fatal_state_key_handling fatalModel "x" (some "boom") "hi" (by decide)).2.2.2

theorem reachAny_loading_input_empty (m : Model) (h : ReachAny m) :
    m.loading = true → m.input = "" := by
  induction h with
  | init => intro hl; simp [initialModelOk, initialModel] at hl
  | key m s hr ih =>
    intro hl
    by_cases h1 : s = "ctrl+c" ∨ s = "q"
    · simp [update, h1] at hl ⊢; exact ih hl
    · by_cases h2 : s = "enter"
      · by_cases h3 : m.input ≠ "" ∧ m.loading = false
        · simp [update, h1, h2, h3]
        · simp [update, h1, h2, h3] at hl ⊢; exact ih hl
      · by_cases h4 : s = "backspace"
        · by_cases h5 : m.input.length > 0
          · simp [update, h1, h2, h4, h5] at hl ⊢
            have := ih hl
            rw [this] at h5
            simp at h5
          · simp [update, h1, h2, h4, h5] at hl ⊢; exact ih hl
        · by_cases h6 : m.loading = false
          · simp [update, h1, h2, h4, h6] at hl
          · simp [update, h1, h2, h4, h6] at hl ⊢
            exact ih (by simpa using h6)
  | start m hr ih => intro hl; exact ih hl
  | started m hr ih => intro hl; exact ih hl
  | upd m c hr ih =>
    intro hl
    rw [streamUpdate_model] at hl ⊢
    exact ih hl
  | complete m c e hr ih => intro hl; cases e <;> simp [update] at hl

/-- C7: in every reachable state with `loading = true`, literal keys and
backspace leave the input buffer unchanged; in every reachable state with
`loading = false`, a literal key appends its representation to the input
buffer.  (Literal keys are those not bound to quit, enter or backspace.) -/
theorem loading_gates_composition (m : Model) (h : ReachAny m) :
    (m.loading = true →
      (∀ s, s ≠ "ctrl+c" → s ≠ "q" → s ≠ "enter" → s ≠ "backspace" →
        (update m (.key s)).1.input = m.input)
      ∧ (update m (.key "backspace")).1.input = m.input)
    ∧ (m.loading = false →
      ∀ s, s ≠ "ctrl+c" → s ≠ "q" → s ≠ "enter" → s ≠ "backspace" →
        (update m (.key s)).1.input = m.input ++ s) := by
  constructor
  · intro hl
    constructor
    · intro s hs1 hs2 hs3 hs4
      simp [update, hs1, hs2, hs3, hs4, hl]
    · have hempty := reachAny_loading_input_empty m h hl
      simp [update, hempty]
  · intro hl s hs1 hs2 hs3 hs4
    simp [update, hs1, hs2, hs3, hs4, hl]

/-- Witness for C7: after submitting `"h"` the state is loading and a
literal key leaves the input buffer untouched; at the start state a
literal key appends. -/
theorem loading_gates_composition_witness :
    (update (update (update initialModelOk (Msg.key "h")).1 (Msg.key "enter")).1
        (Msg.key "x")).1.input
      = (update (update initialModelOk (Msg.key "h")).1 (Msg.key "enter")).1.input
    ∧ (update initialModelOk (Msg.key "x")).1.input = initialModelOk.input ++ "x" :=
  ⟨((loading_gates_composition _
      (ReachAny.key _ "enter" (ReachAny.key _ "h" ReachAny.init))).1 (by decide)).1
      "x" (by decide) (by decide) (by decide) (by decide),
   (loading_gates_composition _ ReachAny.init).2 (by decide)
      "x" (by decide) (by decide) (by decide) (by decide)⟩

theorem reachOrd_inv (m : Model) (h : ReachOrd m) :
    (m.streaming = true → m.loading = true)
    ∧ (m.partialResp ≠ "" → m.streaming = true) := by
  induction h with
  | init => constructor <;> intro h' <;> simp [initialModelOk, initialModel] at h'
  | key m s hr ih =>
    by_cases h1 : s = "ctrl+c" ∨ s = "q"
    · simpa [update, h1] using ih
    · by_cases h2 : s = "enter"
      · by_cases h3 : m.input ≠ "" ∧ m.loading = false
        · constructor
          · intro _; simp [update, h1, h2, h3]
          · intro hp
            simp [update, h1, h2, h3] at hp ⊢
            exact ih.2 hp
        · simpa [update, h1, h2, h3] using ih
      · by_cases h4 : s = "backspace"
        · by_cases h5 : m.input.length > 0 <;>
            simpa [update, h1, h2, h4, h5] using ih
        · by_cases h6 : m.loading = false <;>
            simpa [update, h1, h2, h4, h6] using ih
  | start m hr hload ih =>
    constructor
    · intro _
      simpa [update] using hload
    · intro _
      simp [update]
  | started m hr ih => simpa [update] using ih
  | upd m c hr hstreaming ih =>
    rw [streamUpdate_model]
    constructor
    · intro _
      exact ih.1 hstreaming
    · intro _
      exact hstreaming
  | complete m c e hr ih =>
    cases e <;> constructor <;> intro h' <;> simp [update] at h'

/-- C8 counterexample: the claim quantifies over arbitrary sequences of key
events and relay messages.  Such a sequence — realizable in the program
through the `tea.Batch` race in `sendMessage`, which imposes no order
between `streamStartMsg` and the `streamStarted`-initiated pipeline — can
deliver the request's terminal event before `streamStartMsg`; the late
`streamStartMsg` then leaves `streaming = true` with `loading = false`,
violating the invariant. -/
theorem session_invariant_violated_unordered :
    ReachAny (runMsgs initialModelOk
      [Msg.key "h", Msg.key "enter", Msg.streamStarted,
       Msg.streamCompleteMsg "" none, Msg.streamStartMsg])
    ∧ (runMsgs initialModelOk
      [Msg.key "h", Msg.key "enter", Msg.streamStarted,
       Msg.streamCompleteMsg "" none, Msg.streamStartMsg]).streaming = true
    ∧ (runMsgs initialModelOk
      [Msg.key "h", Msg.key "enter", Msg.streamStarted,
       Msg.streamCompleteMsg "" none, Msg.streamStartMsg]).loading = false :=
  ⟨ReachAny.start _ (ReachAny.complete _ "" none (ReachAny.started _
      (ReachAny.key _ "enter" (ReachAny.key _ "h" ReachAny.init)))),
   by decide, by decide⟩

/-- C8 (amended): in every state reachable by key events and relay messages
delivered in request order (`streamStartMsg` only while a request is in
flight, updates only while streaming), `streaming = true` implies
`loading = true` and a non-empty partial text implies `streaming = true`;
moreover `update` issues `sendMessage` only from a state with
`loading = false`, setting `loading = true`, and while `loading = true`
only a terminal message (`streamCompleteMsg`, or the legacy `msgResponse` /
`msgStreamChunk`) can clear it. -/
theorem session_invariant_request_ordered (m : Model) (h : ReachOrd m) :
    (m.streaming = true → m.loading = true)
    ∧ (m.partialResp ≠ "" → m.streaming = true)
    ∧ (∀ m' : Model, ∀ msg : Msg, (update m' msg).2 = some Cmd.sendMessage →
        m'.loading = false ∧ (update m' msg).1.loading = true)
    ∧ (∀ m' : Model, ∀ msg : Msg, m'.loading = true →
        (update m' msg).1.loading = false →
        (∃ c e, msg = Msg.streamCompleteMsg c e)
        ∨ (∃ c e, msg = Msg.msgResponse c e)
        ∨ (∃ c d e, msg = Msg.msgStreamChunk c d e)) := by
  refine ⟨(reachOrd_inv m h).1, (reachOrd_inv m h).2, ?_, ?_⟩
  · intro m' msg hcmd
    cases msg with
    | key s =>
      by_cases h1 : s = "ctrl+c" ∨ s = "q"
      · simp [update, h1] at hcmd
      · by_cases h2 : s = "enter"
        · by_cases h3 : m'.input ≠ "" ∧ m'.loading = false
          · exact ⟨h3.2, by simp [update, h1, h2, h3]⟩
          · simp [update, h1, h2, h3] at hcmd
        · by_cases h4 : s = "backspace"
          · by_cases h5 : m'.input.length > 0 <;>
              simp [update, h1, h2, h4, h5] at hcmd
          · by_cases h6 : m'.loading = false <;>
              simp [update, h1, h2, h4, h6] at hcmd
    | msgResponse c e => cases e <;> simp [update] at hcmd
    | streamStartMsg => simp [update] at hcmd
    | streamStarted => simp [update] at hcmd
    | streamUpdateMsg c =>
      simp only [update] at hcmd
      split at hcmd <;> split at hcmd <;> simp at hcmd
    | streamCompleteMsg c e => cases e <;> simp [update] at hcmd
    | msgStreamChunk c d e =>
      cases e with
      | some e' => simp [update] at hcmd
      | none => cases d <;> simp [update] at hcmd
  · intro m' msg hl hl'
    cases msg with
    | key s =>
      exfalso
      by_cases h1 : s = "ctrl+c" ∨ s = "q"
      · simp [update, h1, hl] at hl'
      · by_cases h2 : s = "enter"
        · by_cases h3 : m'.input ≠ "" ∧ m'.loading = false
          · exact absurd hl (by simp [h3.2])
          · simp [update, h1, h2, h3, hl] at hl'
        · by_cases h4 : s = "backspace"
          · by_cases h5 : m'.input.length > 0 <;>
              simp [update, h1, h2, h4, h5, hl] at hl'
          · by_cases h6 : m'.loading = false
            · exact absurd hl (by simp [h6])
            · simp [update, h1, h2, h4, h6, hl] at hl'
    | msgResponse c e => exact Or.inr (Or.inl ⟨c, e, rfl⟩)
    | streamStartMsg => exfalso; simp [update, hl] at hl'
    | streamStarted => exfalso; simp [update, hl] at hl'
    | streamUpdateMsg c =>
      exfalso
      rw [streamUpdate_model] at hl'
      simp [hl] at hl'
    | streamCompleteMsg c e => exact Or.inl ⟨c, e, rfl⟩
    | msgStreamChunk c d e => exact Or.inr (Or.inr ⟨c, d, e, rfl⟩)

/-- Witness for C8's amended theorem: after submitting `"h"` and receiving
`streamStartMsg` in request order, the state is both streaming and
loading. -/
theorem session_invariant_request_ordered_witness :
    (runMsgs initialModelOk
      [Msg.key "h", Msg.key "enter", Msg.streamStartMsg]).loading = true :=
  (session_invariant_request_ordered _
    (ReachOrd.start _ (ReachOrd.key _ "enter" (ReachOrd.key _ "h" ReachOrd.init))
      (by decide))).1 (by decide)

theorem update_err_preserved (m : Model) (msg : Msg) :
    (update m msg).1.err = m.err ∨ ∃ e', (update m msg).1.err = some e' := by
  cases msg with
  | key s =>
    left
    simp only [update]
    repeat' split
    all_goals rfl
  | msgResponse c e =>
    cases e with
    | none => left; simp [update]
    | some e' => right; exact ⟨e', by simp [update]⟩
  | streamStartMsg => left; simp [update]
  | streamStarted => left; simp [update]
  | streamUpdateMsg c => left; rw [streamUpdate_model]
  | streamCompleteMsg c e =>
    cases e with
    | none => left; simp [update]
    | some e' => right; exact ⟨e', by simp [update]⟩
  | msgStreamChunk c d e =>
    cases e with
    | some e' => right; exact ⟨e', by simp [update]⟩
    | none => left; cases d <;> simp [update]

/-- C10: once the error field is set, no transition clears it (it stays
`some`); while it is set, the view renders only the error text and the
quit hint; yet the state machine still appends literal keys to the input
buffer and still issues `sendMessage` on enter with non-empty input. -/
theorem error_field_sticky (m : Model) (msg : Msg) (e : String)
    (he : m.err = some e) :
    (∃ e', (update m msg).1.err = some e')
    ∧ view m = "Error: " ++ e ++ "\n\n" ++ "Press q to quit."
    ∧ (m.loading = false →
        ∀ s, s ≠ "ctrl+c" → s ≠ "q" → s ≠ "enter" → s ≠ "backspace" →
          (update m (.key s)).1.input = m.input ++ s)
    ∧ (m.loading = false → m.input ≠ "" →
        (update m (.key "enter")).2 = some Cmd.sendMessage) := by
  refine ⟨?_, ?_, ?_, ?_⟩
  · rcases update_err_preserved m msg with h | h
    · exact ⟨e, by rw [h, he]⟩
    · exact h
  · simp [view, he]
  · intro hl s h1 h2 h3 h4
    simp [update, h1, h2, h3, h4, hl]
  · intro hl hi
    simp [update, hi, hl]

/-- Witness for C10 at the Fatal startup state. -/
theorem error_field_sticky_witness :
    (∃ e', (update fatalModel Msg.streamStartMsg).1.err = some e')
    ∧ view fatalModel
        = "Error: " ++ "OPENAI_API_KEY not found in environment or .env file"
            ++ "\n\n" ++ "Press q to quit." :=
  ⟨(error_field_sticky fatalModel Msg.streamStartMsg
      "OPENAI_API_KEY not found in environment or .env file" (by decide)).1,
   (error_field_sticky fatalModel Msg.streamStartMsg
      "OPENAI_API_KEY not found in environment or .env file" (by decide)).2.1⟩
